import Mathlib

/-!  Shallow embedding of the appointment-booking backend (Go + Gin + MySQL).

The embedding covers `internal/api/handlers.go` and the schema constraints of
`internal/models/migrations.sql`.  Instants are `Int` seconds since the Unix
epoch (Go `time.Time` at second precision); the sub-second component of a
parsed request time is carried separately, mirroring Go's `(sec, nsec)` pair.
A Go `*time.Location` is modelled as a base UTC offset together with a sorted
list of transition instants, and `goDate` mirrors the offset-resolution steps
of Go's `time.Date`.  The relational store is modelled as explicit state: the
`coach_availabilities` foreign key makes an insert for an unknown coach fail,
and the `ux_coach_start` unique key makes a duplicate `(coach_id, start_time)`
insert fail with a duplicate-entry error.  Slot keys in the handler are
RFC3339-formatted UTC strings; formatting at second precision is injective, so
the booked-slot set is modelled as a set of instants.  Transport concerns
(JSON binding, string parsing of query parameters) are outside the embedded
core: handlers receive already-destructured inputs, as the spec's §1 excludes
the request-parsing framework.  The `users` table and the `fk_b_user` foreign
key are likewise outside the core: the API exposes no user-creation endpoint
and no behaviour here depends on user rows. -/

namespace ABook

/-! ### Calendar arithmetic -/

/-- A civil (proleptic Gregorian) calendar date. -/
structure CivilDate where
  y : Int
  m : Int
  d : Int
deriving DecidableEq, Repr

/-- Day number (days since 1970-01-01) of a civil date (Hinnant's algorithm,
with floor division so it is valid on all of `Int`). -/
def daysFromCivil (cd : CivilDate) : Int :=
  let yy := if cd.m ≤ 2 then cd.y - 1 else cd.y
  let era := yy.ediv 400
  let yoe := yy - era * 400
  let doy := Int.ediv (153 * (if 2 < cd.m then cd.m - 3 else cd.m + 9) + 2) 5 + cd.d - 1
  let doe := yoe * 365 + yoe.ediv 4 - yoe.ediv 100 + doy
  era * 146097 + doe - 719468

/-- Civil date of a day number (inverse of `daysFromCivil`). -/
def civilFromDays (z0 : Int) : CivilDate :=
  let z := z0 + 719468
  let era := z.ediv 146097
  let doe := z - era * 146097
  let yoe := Int.ediv (doe - doe.ediv 1460 + doe.ediv 36524 - doe.ediv 146096) 365
  let y := yoe + era * 400
  let doy := doe - (365 * yoe + yoe.ediv 4 - yoe.ediv 100)
  let mp := Int.ediv (5 * doy + 2) 153
  let d := doy - Int.ediv (153 * mp + 2) 5 + 1
  let m := mp + (if mp < 10 then 3 else -9)
  ⟨if m ≤ 2 then y + 1 else y, m, d⟩

/-- Weekday of a day number, Go convention 0 = Sunday .. 6 = Saturday;
1970-01-01 (day 0) was a Thursday (= 4). -/
def weekdayOfDays (z : Int) : Int := (z + 4).emod 7

/-! ### Timezone model (Go `*time.Location`) -/

/-- A timezone: the UTC offset (seconds east) in effect before the first
transition, and a chronologically sorted list of `(transition instant, new
offset)` pairs.  A fixed-offset zone has no transitions. -/
structure Location where
  base : Int
  trans : List (Int × Int)
deriving DecidableEq, Repr

/-- Sentinel for the start of the first zone interval (Go uses min int64). -/
def farPast : Int := -(2 ^ 62)

/-- Sentinel for the end of the last zone interval (Go uses max int64). -/
def farFuture : Int := 2 ^ 62

/-- Walk the transition list to find the interval containing `t`. -/
def lookupAux (off s t : Int) : List (Int × Int) → Int × Int × Int
  | [] => (off, s, farFuture)
  | (s2, o2) :: rest => if t < s2 then (off, s, s2) else lookupAux o2 s2 t rest

/-- Go `Location.lookup`: the `(offset, intervalStart, intervalEnd)` in effect
at UTC instant `t`. -/
def Location.lookup (loc : Location) (t : Int) : Int × Int × Int :=
  lookupAux loc.base farPast t loc.trans

/-- The UTC offset (seconds east) in effect at UTC instant `t`. -/
def Location.offset (loc : Location) (t : Int) : Int := (loc.lookup t).1

/-- Go `time.Date(y, m, d, hh, mm, 0, 0, loc)`: resolve a local wall-clock
time on a civil date to a UTC instant, including Go's refinement step around
zone transitions. -/
def goDate (loc : Location) (cd : CivilDate) (hh mm : Int) : Int :=
  let unix := daysFromCivil cd * 86400 + hh * 3600 + mm * 60
  let r := loc.lookup unix
  let off := r.1
  if off = 0 then unix
  else
    let utc := unix - off
    let off2 :=
      if utc < r.2.1 then (loc.lookup (r.2.1 - 1)).1
      else if r.2.2 ≤ utc then (loc.lookup r.2.2).1
      else off
    unix - off2

/-- Local day number of UTC instant `t` seen in `loc` (Go `t.In(loc)`). -/
def localDays (loc : Location) (t : Int) : Int :=
  (t + loc.offset t).ediv 86400

/-- Local civil date of UTC instant `t` seen in `loc`. -/
def localCivil (loc : Location) (t : Int) : CivilDate :=
  civilFromDays (localDays loc t)

/-- Go `t.In(loc).Weekday()` as an `Int` in `0..6`. -/
def localWeekday (loc : Location) (t : Int) : Int :=
  weekdayOfDays (localDays loc t)

/-! ### Go times and the 30-minute boundary check -/

/-- A Go `time.Time` as produced by `time.Parse(time.RFC3339, ...)`: Unix
seconds plus a sub-second nanosecond component. -/
structure GoTime where
  sec : Int
  nsec : Int
deriving DecidableEq, Repr

/-- `t.Minute()` of a UTC time at Unix second `t`. -/
def utcMinute (t : Int) : Int := (t.ediv 60).emod 60

/-- `t.Second()` of a UTC time at Unix second `t`. -/
def utcSecond (t : Int) : Int := t.emod 60

/-- `IsOnThirtyMinuteBoundary` from handlers.go:
`t.Minute()%30 == 0 && t.Second() == 0 && t.Nanosecond() == 0`. -/
def isOnThirtyMinuteBoundary (t : GoTime) : Bool :=
  decide ((utcMinute t.sec).emod 30 = 0) && decide (utcSecond t.sec = 0) &&
    decide (t.nsec = 0)

/-! ### Parsing `"HH:MM"` (Go `time.Parse("15:04", s)`)

Go's reference-layout parser reads one or two digits for the hour (`15` is not
fixed-width), a literal colon, exactly two digits for the minute, requires the
whole input consumed, and range-checks hour `0..23` and minute `0..59`. -/

/-- Numeric value of an ASCII digit character. -/
def digitVal (c : Char) : Int := (c.toNat : Int) - 48

/-- Parse `"HH:MM"` (or `"H:MM"`) exactly as Go's `time.Parse("15:04", s)`
accepts it, returning the hour and minute. -/
def parseHHMM (str : String) : Option (Int × Int) :=
  match str.data with
  | [a, b, c, d, e] =>
    if a.isDigit && b.isDigit && c == ':' && d.isDigit && e.isDigit then
      let h := digitVal a * 10 + digitVal b
      let mi := digitVal d * 10 + digitVal e
      if h ≤ 23 ∧ mi ≤ 59 then some (h, mi) else none
    else none
  | [a, b, c, d] =>
    if a.isDigit && b == ':' && c.isDigit && d.isDigit then
      let h := digitVal a
      let mi := digitVal c * 10 + digitVal d
      if h ≤ 23 ∧ mi ≤ 59 then some (h, mi) else none
    else none
  | _ => none

/-- Lexicographic comparison of character lists by code point. -/
def charsLt : List Char → List Char → Bool
  | [], [] => false
  | [], _ :: _ => true
  | _ :: _, [] => false
  | a :: as, b :: bs =>
    if a.toNat < b.toNat then true
    else if b.toNat < a.toNat then false
    else charsLt as bs

/-- Go's `<` on strings: lexicographic byte comparison (for the ASCII strings
compared here, identical to code-point comparison). -/
def strLt (a b : String) : Bool := charsLt a.data b.data

/-- The `(hour, minute)` a handler obtains from
`sp, _ := time.ParseInLocation("15:04", s, loc)` followed by
`sp.Hour(), sp.Minute()`: the parsed value, or the zero `time.Time`'s
`(0, 0)` when the ignored error is non-nil. -/
def hhmmOrZero (str : String) : Int × Int := (parseHHMM str).getD (0, 0)

/-! ### Data model and database state -/

/-- A row of `coaches`. -/
structure Coach where
  id : Int
  name : String
  tz : String
deriving DecidableEq, Repr

/-- A row of `coach_availabilities` (local times kept as the stored strings,
exactly as the `VARCHAR(5)` columns do). -/
structure Avail where
  id : Int
  coachId : Int
  day : Int
  startT : String
  endT : String
deriving DecidableEq, Repr

/-- A row of `bookings`. -/
structure Booking where
  id : Int
  userId : Int
  coachId : Int
  startsAt : Int
  endsAt : Int
deriving DecidableEq, Repr

/-- The database state: table contents plus auto-increment counters. -/
structure DBState where
  coaches : List Coach
  avails : List Avail
  bookings : List Booking
  nextCoachId : Int
  nextAvailId : Int
  nextBookingId : Int
deriving DecidableEq, Repr

/-- The empty database. -/
def initState : DBState := ⟨[], [], [], 1, 1, 1⟩

/-- The error taxonomy of spec §7, as surfaced by the handlers' HTTP
responses. -/
inductive ApiError where
  | MalformedInput
  | InvalidTimezone
  | CoachNotFound
  | BoundaryViolation
  | OutsideAvailability
  | SlotConflict
  | NotFound
  | StorageError
deriving DecidableEq, Repr

/-- A handler outcome: payload or typed error. -/
inductive HRes (α : Type) where
  | ok : α → HRes α
  | err : ApiError → HRes α
deriving DecidableEq, Repr

/-- `SELECT ... FROM coaches WHERE id = ?`. -/
def findCoach (s : DBState) (cid : Int) : Option Coach :=
  s.coaches.find? (fun c => c.id == cid)

/-- `SELECT start_time, end_time FROM coach_availabilities WHERE coach_id = ?
AND day_of_week = ?`, in creation order. -/
def windowsFor (s : DBState) (cid day : Int) : List Avail :=
  s.avails.filter (fun a => a.coachId == cid && a.day == day)

/-- The IANA timezone database as seen by `time.LoadLocation`: a fixed partial
map from zone names to zone data, constant for the life of the process. -/
def TzDb : Type := String → Option Location

/-- The value the handlers use after `loc, _ := time.LoadLocation(tz)`; when
the lookup fails `loc` is Go's nil pointer, modelled by a default whose use
stands for the dereference of nil (shown unreachable for reachable states). -/
def loadedLoc (tzdb : TzDb) (tz : String) : Location := (tzdb tz).getD ⟨0, []⟩

/-! ### Handlers -/

/-- `CreateCoachHandler`: validate the timezone against the IANA database,
insert the coach. -/
def createCoach (tzdb : TzDb) (nm tz : String) (s : DBState) :
    HRes Int × DBState :=
  match tzdb tz with
  | none => (.err .InvalidTimezone, s)
  | some _ =>
    (.ok s.nextCoachId,
      { s with coaches := s.coaches ++ [⟨s.nextCoachId, nm, tz⟩],
               nextCoachId := s.nextCoachId + 1 })

/-- `PostAvailabilityHandler`: range-check the day, parse both local times,
require `start_time < end_time` as Go compares strings (lexicographically by
byte), then insert; the `fk_ca_coach` foreign key makes the insert fail for an
unknown coach, surfacing as a 500 (`StorageError`). -/
def addAvailability (cid day : Int) (st en : String) (s : DBState) :
    HRes Int × DBState :=
  if day < 0 ∨ 6 < day then (.err .MalformedInput, s)
  else if (parseHHMM st).isNone then (.err .MalformedInput, s)
  else if (parseHHMM en).isNone then (.err .MalformedInput, s)
  else if strLt st en = false then (.err .MalformedInput, s)
  else if (findCoach s cid).isNone then (.err .StorageError, s)
  else
    (.ok s.nextAvailId,
      { s with avails := s.avails ++ [⟨s.nextAvailId, cid, day, st, en⟩],
               nextAvailId := s.nextAvailId + 1 })

/-- 30 minutes, in seconds. -/
def slotLen : Int := 1800

/-- The slot-walk loop of `GetSlotsHandler`, with a structural fuel argument
large enough never to bite (see `genLoop_eq`):
`for t := start; !t.Add(30m).After(end); t = t.Add(30m) { emit t }`. -/
def genLoopFuel : Nat → Int → Int → List Int
  | 0, _, _ => []
  | fuel + 1, endT, t =>
    if t + slotLen ≤ endT then t :: genLoopFuel fuel endT (t + slotLen)
    else []

/-- The slot-walk loop: emit `t, t+30m, ...` while `t + 30m ≤ endT`. -/
def genLoop (endT t : Int) : List Int := genLoopFuel (endT - t).toNat endT t

/-- Candidate slots one availability window contributes on the requested civil
date: anchor its parsed local start/end onto the date via `time.Date`, then
walk in 30-minute steps. -/
def slotsForWindow (loc : Location) (cd : CivilDate) (a : Avail) : List Int :=
  let sp := hhmmOrZero a.startT
  let ep := hhmmOrZero a.endT
  genLoop (goDate loc cd ep.1 ep.2) (goDate loc cd sp.1 sp.2)

/-- `GetSlotsHandler`: look up the coach, compute the weekday of the parsed
date (a UTC-midnight instant) seen in the coach's zone, generate candidate
slots from that weekday's windows, and filter out slots booked within
`[startOfLocalDay, startOfLocalDay + 24h)`. -/
def querySlots (tzdb : TzDb) (cid : Int) (cd : CivilDate) (s : DBState) :
    HRes (List Int) × DBState :=
  match findCoach s cid with
  | none => (.err .CoachNotFound, s)
  | some c =>
    let loc := loadedLoc tzdb c.tz
    let wd := localWeekday loc (daysFromCivil cd * 86400)
    let avs := windowsFor s cid wd
    let slots := avs.foldr (fun a acc => slotsForWindow loc cd a ++ acc) []
    let u0 := goDate loc cd 0 0
    let u1 := u0 + 86400
    let booked := (s.bookings.filter
      (fun b => b.coachId == cid && decide (u0 ≤ b.startsAt) &&
        decide (b.startsAt < u1))).map (fun b => b.startsAt)
    (.ok (slots.filter (fun t => !(booked.contains t))), s)

/-- The availability test `PostBookingHandler` applies to one window:
`!startLocal.Before(availStart) && !startLocal.Add(30m).After(availEnd)`. -/
def availOK (loc : Location) (cd : CivilDate) (start : Int) (a : Avail) :
    Bool :=
  decide (goDate loc cd (hhmmOrZero a.startT).1 (hhmmOrZero a.startT).2
      ≤ start) &&
  decide (start + slotLen
      ≤ goDate loc cd (hhmmOrZero a.endT).1 (hhmmOrZero a.endT).2)

/-- The whole availability check of `PostBookingHandler` at instant `start`
for coach `cid` with zone `loc`: take the request's local civil date, resolve
its midnight through `time.Date` (`localDate` in the source; on a DST gap
date whose local midnight does not exist this resolves into the previous
local day), and draw both the weekday (`localDate.Weekday()`) and the
anchoring civil date (`localDate.Year()/Month()/Day()`) from that resolved
instant, then test every window stored for that weekday. -/
def bookingAllowed (loc : Location) (s : DBState) (cid start : Int) : Bool :=
  (windowsFor s cid
      (localWeekday loc (goDate loc (localCivil loc start) 0 0))).any
    (availOK loc (localCivil loc (goDate loc (localCivil loc start) 0 0))
      start)

/-- `PostBookingHandler`: parse (upstream), look up the coach, check the
30-minute boundary, check availability for the coach-local date, then insert;
the `ux_coach_start` unique key turns a duplicate `(coach_id, start_time)`
into MySQL error 1062, surfaced as 409 (`SlotConflict`). -/
def createBooking (tzdb : TzDb) (uid cid : Int) (dt : GoTime) (s : DBState) :
    HRes Int × DBState :=
  match findCoach s cid with
  | none => (.err .CoachNotFound, s)
  | some c =>
    let loc := loadedLoc tzdb c.tz
    if isOnThirtyMinuteBoundary dt = false then (.err .BoundaryViolation, s)
    else if bookingAllowed loc s cid dt.sec = false then
      (.err .OutsideAvailability, s)
    else if s.bookings.any
        (fun b => b.coachId == cid && b.startsAt == dt.sec) then
      (.err .SlotConflict, s)
    else
      let b : Booking := ⟨s.nextBookingId, uid, cid, dt.sec, dt.sec + slotLen⟩
      (.ok s.nextBookingId,
        { s with bookings := s.bookings ++ [b],
                 nextBookingId := s.nextBookingId + 1 })

/-- `CancelBookingHandler`: `DELETE FROM bookings WHERE id = ?`; zero rows
affected reports 404 (`NotFound`). -/
def cancelBooking (bid : Int) (s : DBState) : HRes Unit × DBState :=
  let remaining := s.bookings.filter (fun b => ¬ b.id == bid)
  if remaining.length = s.bookings.length then (.err .NotFound, s)
  else (.ok (), { s with bookings := remaining })

/-! ### Reachable database states

The mutating operations; `GetSlotsHandler` and `GetUserBookingsHandler` are
read-only and do not change the state, so reachability is determined by these
four. -/

/-- One mutating handler invocation. -/
inductive Step (tzdb : TzDb) : DBState → DBState → Prop
  | coach (nm tz : String) (s : DBState) :
      Step tzdb s (createCoach tzdb nm tz s).2
  | avail (cid day : Int) (st en : String) (s : DBState) :
      Step tzdb s (addAvailability cid day st en s).2
  | book (uid cid : Int) (dt : GoTime) (s : DBState) :
      Step tzdb s (createBooking tzdb uid cid dt s).2
  | cancel (bid : Int) (s : DBState) :
      Step tzdb s (cancelBooking bid s).2

/-- States reachable from the empty database by handler invocations. -/
def Reachable (tzdb : TzDb) (s : DBState) : Prop :=
  Relation.ReflTransGen (Step tzdb) initState s

/-! ### Concrete zones and scenarios

`tzdbEx` is an IANA database restricted to the zones the scenarios use; the
offsets are the real ones in effect on the dates involved (transitions that
play no role on those dates are omitted; Tehran's 2021 fall-back transition,
which does play a role, is included). -/

/-- Asia/Kolkata: fixed +05:30, no DST. -/
def kolkata : Location := ⟨19800, []⟩

/-- Asia/Tehran around September 2021: +04:30 (IRDT) until the fall-back at
2021-09-21 00:00 local = 2021-09-20 19:30 UTC, then +03:30 (IRST); the local
day 2021-09-20 lasts 25 hours. -/
def tehran : Location :=
  ⟨16200, [(daysFromCivil ⟨2021, 9, 20⟩ * 86400 + 70200, 12600)]⟩

/-- America/New_York on 2025-10-28: -04:00 (EDT). -/
def nyFixed : Location := ⟨-14400, []⟩

/-- UTC. -/
def utcLoc : Location := ⟨0, []⟩

/-- The zone database used by the concrete scenarios. -/
def tzdbEx : TzDb := fun nm =>
  if nm = "Asia/Kolkata" then some kolkata
  else if nm = "Asia/Tehran" then some tehran
  else if nm = "America/New_York" then some nyFixed
  else if nm = "UTC" then some utcLoc
  else none

/-- Kolkata coach created. -/
def sK1 : DBState := (createCoach tzdbEx "Asha" "Asia/Kolkata" initState).2

/-- ... with a Tuesday 09:00–12:00 window. -/
def sK2 : DBState := (addAvailability 1 2 "09:00" "12:00" sK1).2

/-- 2025-10-28T03:30:00Z, the first generated Kolkata slot (= 09:00 IST). -/
def tueSlot1 : Int := daysFromCivil ⟨2025, 10, 28⟩ * 86400 + 12600

/-- ... with that slot booked by user 7. -/
def sK3 : DBState := (createBooking tzdbEx 7 1 ⟨tueSlot1, 0⟩ sK2).2

/-- New York coach created. -/
def sN1 : DBState := (createCoach tzdbEx "Noa" "America/New_York" initState).2

/-- ... with a Tuesday 09:00–12:00 window. -/
def sN2 : DBState := (addAvailability 1 2 "09:00" "12:00" sN1).2

/-- America/Santiago around September 2025: -04:00 (CLT) until the
spring-forward at 2025-09-06 24:00 local = 2025-09-07 04:00 UTC, then -03:00
(CLST); local midnight of Sunday 2025-09-07 does not exist. -/
def santiago : Location :=
  ⟨-14400, [(daysFromCivil ⟨2025, 9, 7⟩ * 86400 + 14400, -10800)]⟩

/-- The zone database for the Santiago scenario. -/
def tzdbS : TzDb := fun nm =>
  if nm = "America/Santiago" then some santiago else none

/-- Santiago coach created. -/
def sS1 : DBState := (createCoach tzdbS "Sol" "America/Santiago" initState).2

/-- ... with a Sunday (0) 09:00–12:00 window. -/
def sS2 : DBState := (addAvailability 1 0 "09:00" "12:00" sS1).2

/-- 2025-09-07T13:00:00Z = Sunday 2025-09-07 10:00 CLST, a boundary-aligned
instant inside the Sunday window when that window is anchored on the
requested instant's own local date. -/
def sunSlot : Int := daysFromCivil ⟨2025, 9, 7⟩ * 86400 + 46800

/-! ### The slot-walk loop -/

/-- `genLoopFuel` returns `[]` whenever the loop guard fails immediately,
regardless of fuel. -/
theorem genLoopFuel_nil {endT t : Int} (h : ¬ t + slotLen ≤ endT) :
    ∀ n, genLoopFuel n endT t = [] := by
  intro n
  cases n with
  | zero => rfl
  | succ n => simp [genLoopFuel, h]

/-- Any two sufficient fuels give the same result. -/
theorem genLoopFuel_congr {endT : Int} :
    ∀ (n m : Nat) (t : Int), (endT - t).toNat ≤ n → (endT - t).toNat ≤ m →
      genLoopFuel n endT t = genLoopFuel m endT t := by
  intro n
  induction n with
  | zero =>
    intro m t hn _
    have h : ¬ t + slotLen ≤ endT := by simp only [slotLen]; omega
    rw [genLoopFuel_nil h, genLoopFuel_nil h]
  | succ n ih =>
    intro m t hn hm
    by_cases hc : t + slotLen ≤ endT
    · have h1 : (1 : Nat) ≤ (endT - t).toNat := by simp only [slotLen] at hc; omega
      obtain ⟨m', rfl⟩ : ∃ m', m = m' + 1 := ⟨m - 1, by omega⟩
      simp only [genLoopFuel, if_pos hc]
      have hb : (endT - (t + slotLen)).toNat ≤ n := by
        simp only [slotLen] at *; omega
      have hb2 : (endT - (t + slotLen)).toNat ≤ m' := by
        simp only [slotLen] at *; omega
      rw [ih m' (t + slotLen) hb hb2]
    · rw [genLoopFuel_nil hc, genLoopFuel_nil hc]

/-- The defining one-step unfolding of the loop: `genLoop` IS the source loop
`for t := start; !t.Add(30m).After(end); t = t.Add(30m) { emit t }`. -/
theorem genLoop_eq (endT t : Int) :
    genLoop endT t =
      if t + slotLen ≤ endT then t :: genLoop endT (t + slotLen) else [] := by
  unfold genLoop
  by_cases hc : t + slotLen ≤ endT
  · have h1 : (1 : Nat) ≤ (endT - t).toNat := by simp only [slotLen] at hc; omega
    obtain ⟨m, hm⟩ : ∃ m, (endT - t).toNat = m + 1 := ⟨(endT - t).toNat - 1, by omega⟩
    rw [hm]
    simp only [genLoopFuel, if_pos hc, if_pos hc]
    congr 1
    exact genLoopFuel_congr m ((endT - (t + slotLen)).toNat) (t + slotLen)
      (by simp only [slotLen] at *; omega) (le_refl _)
  · rw [if_neg hc, genLoopFuel_nil hc]

/-- Emission characterization for a fixed fuel (given the fuel suffices). -/
theorem mem_genLoopFuel {endT : Int} :
    ∀ (n : Nat) (t x : Int), (endT - t).toNat ≤ n →
      (x ∈ genLoopFuel n endT t ↔
        ∃ k : Nat, x = t + slotLen * k ∧ x + slotLen ≤ endT) := by
  intro n
  induction n with
  | zero =>
    intro t x h
    constructor
    · intro hx
      simp [genLoopFuel] at hx
    · rintro ⟨k, rfl, hk⟩
      exfalso
      simp only [slotLen] at *
      omega
  | succ n ih =>
    intro t x h
    by_cases hc : t + slotLen ≤ endT
    · simp only [genLoopFuel, if_pos hc, List.mem_cons]
      rw [ih (t + slotLen) x (by simp only [slotLen] at *; omega)]
      constructor
      · rintro (rfl | ⟨k, rfl, hk⟩)
        · exact ⟨0, by simp, hc⟩
        · exact ⟨k + 1, by push_cast; ring, hk⟩
      · rintro ⟨k, rfl, hk⟩
        cases k with
        | zero => left; simp
        | succ k => right; exact ⟨k, by push_cast; ring, hk⟩
    · rw [genLoopFuel_nil hc]
      constructor
      · intro hx
        simp at hx
      · rintro ⟨k, rfl, hk⟩
        exfalso
        simp only [slotLen] at *
        omega

/-- Emission characterization of the slot walk: `x` is emitted iff it is
`start + 30min·k` for some `k ≥ 0` and `x + 30min ≤ end`. -/
theorem mem_genLoop {endT t x : Int} :
    x ∈ genLoop endT t ↔
      ∃ k : Nat, x = t + slotLen * k ∧ x + slotLen ≤ endT := by
  unfold genLoop
  exact mem_genLoopFuel (endT - t).toNat t x (le_refl _)

/-! ### Invariants of reachable states -/

/-- What `PostBookingHandler` guaranteed when it admitted a booking, restated
at an arbitrary later state: the coach row exists, the start instant is
30-minute aligned, and the availability check passes. -/
def BookingOK (tzdb : TzDb) (s : DBState) (b : Booking) : Prop :=
  isOnThirtyMinuteBoundary ⟨b.startsAt, 0⟩ = true ∧
  ∃ c, findCoach s b.coachId = some c ∧
    bookingAllowed (loadedLoc tzdb c.tz) s b.coachId b.startsAt = true

/-- The state invariant: every stored coach's timezone resolves; booking ids
are distinct and below the auto-increment counter; no two bookings share a
`(coach, start)` pair (the `ux_coach_start` unique key); and every booking
still passes the checks that admitted it. -/
def StateInv (tzdb : TzDb) (s : DBState) : Prop :=
  (∀ c ∈ s.coaches, (tzdb c.tz).isSome = true) ∧
  s.bookings.Pairwise (fun a b => a.id ≠ b.id) ∧
  (∀ b ∈ s.bookings, b.id < s.nextBookingId) ∧
  s.bookings.Pairwise
    (fun a b => ¬ (a.coachId = b.coachId ∧ a.startsAt = b.startsAt)) ∧
  (∀ b ∈ s.bookings, BookingOK tzdb s b)

/-- A successful coach lookup survives rows being appended to the table. -/
theorem findCoach_mono {s s' : DBState} {cid : Int} {c : Coach}
    (hl : ∃ l, s'.coaches = s.coaches ++ l)
    (h : findCoach s cid = some c) : findCoach s' cid = some c := by
  obtain ⟨l, hl⟩ := hl
  unfold findCoach at *
  rw [hl, List.find?_append, h]
  rfl

/-- Appending availability rows only appends to each weekday's window list. -/
theorem windowsFor_mono {s s' : DBState} {cid day : Int}
    (hl : ∃ l, s'.avails = s.avails ++ l) :
    ∃ l2, windowsFor s' cid day = windowsFor s cid day ++ l2 := by
  obtain ⟨l, hl⟩ := hl
  exact ⟨_, by unfold windowsFor; rw [hl, List.filter_append]⟩

/-- The availability check is monotone in the stored windows. -/
theorem bookingAllowed_mono {loc : Location} {s s' : DBState} {cid start : Int}
    (hl : ∃ l, s'.avails = s.avails ++ l)
    (hb : bookingAllowed loc s cid start = true) :
    bookingAllowed loc s' cid start = true := by
  unfold bookingAllowed at *
  obtain ⟨l2, h2⟩ := @windowsFor_mono s s' cid
    (localWeekday loc (goDate loc (localCivil loc start) 0 0)) hl
  rw [h2, List.any_append, hb, Bool.true_or]

/-- `BookingOK` survives any step that only appends coaches and windows. -/
theorem bookingOK_mono {tzdb : TzDb} {s s' : DBState} {b : Booking}
    (hc : ∃ l, s'.coaches = s.coaches ++ l)
    (ha : ∃ l, s'.avails = s.avails ++ l)
    (h : BookingOK tzdb s b) : BookingOK tzdb s' b := by
  obtain ⟨hb, c, hf, hal⟩ := h
  exact ⟨hb, c, findCoach_mono hc hf, bookingAllowed_mono ha hal⟩

/-- `CreateCoachHandler` preserves the state invariant. -/
theorem stateInv_createCoach {tzdb : TzDb} {s : DBState} (nm tz : String)
    (h : StateInv tzdb s) : StateInv tzdb (createCoach tzdb nm tz s).2 := by
  obtain ⟨h1, h2, h3, h4, h5⟩ := h
  cases htz : tzdb tz with
  | none => simp only [createCoach, htz]; exact ⟨h1, h2, h3, h4, h5⟩
  | some loc =>
    simp only [createCoach, htz]
    refine ⟨?_, h2, h3, h4, ?_⟩
    · intro c hc
      rw [List.mem_append] at hc
      rcases hc with hc | hc
      · exact h1 c hc
      · simp only [List.mem_singleton] at hc
        subst hc
        simp [htz]
    · intro b hb
      exact bookingOK_mono ⟨_, rfl⟩ ⟨[], by simp⟩ (h5 b hb)

/-- `PostAvailabilityHandler` preserves the state invariant. -/
theorem stateInv_addAvail {tzdb : TzDb} {s : DBState} (cid day : Int)
    (st en : String) (h : StateInv tzdb s) :
    StateInv tzdb (addAvailability cid day st en s).2 := by
  obtain ⟨h1, h2, h3, h4, h5⟩ := h
  unfold addAvailability
  split
  · exact ⟨h1, h2, h3, h4, h5⟩
  split
  · exact ⟨h1, h2, h3, h4, h5⟩
  split
  · exact ⟨h1, h2, h3, h4, h5⟩
  split
  · exact ⟨h1, h2, h3, h4, h5⟩
  split
  · exact ⟨h1, h2, h3, h4, h5⟩
  refine ⟨h1, h2, h3, h4, ?_⟩
  intro b hb
  exact bookingOK_mono ⟨[], by simp⟩ ⟨_, rfl⟩ (h5 b hb)

/-- `PostBookingHandler` preserves the state invariant. -/
theorem stateInv_createBooking {tzdb : TzDb} {s : DBState} (uid cid : Int)
    (dt : GoTime) (h : StateInv tzdb s) :
    StateInv tzdb (createBooking tzdb uid cid dt s).2 := by
  obtain ⟨h1, h2, h3, h4, h5⟩ := h
  cases hf : findCoach s cid with
  | none => simp only [createBooking, hf]; exact ⟨h1, h2, h3, h4, h5⟩
  | some c =>
    simp only [createBooking, hf]
    split
    · exact ⟨h1, h2, h3, h4, h5⟩
    split
    · exact ⟨h1, h2, h3, h4, h5⟩
    split
    · exact ⟨h1, h2, h3, h4, h5⟩
    rename_i hbound hallow hconf
    rw [Bool.not_eq_false] at hbound hallow
    rw [Bool.not_eq_true, List.any_eq_false] at hconf
    have hnew : ∀ b ∈ s.bookings,
        ¬ (b.coachId = cid ∧ b.startsAt = dt.sec) := by
      intro b hb hcontra
      exact hconf b hb (by simp [hcontra.1, hcontra.2])
    refine ⟨h1, ?_, ?_, ?_, ?_⟩
    · rw [List.pairwise_append]
      refine ⟨h2, by simp, ?_⟩
      intro a ha b' hb'
      simp only [List.mem_singleton] at hb'
      subst hb'
      show a.id ≠ s.nextBookingId
      have := h3 a ha
      omega
    · intro b hb
      rw [List.mem_append] at hb
      rcases hb with hb | hb
      · show b.id < s.nextBookingId + 1
        have := h3 b hb
        omega
      · simp only [List.mem_singleton] at hb
        subst hb
        show s.nextBookingId < s.nextBookingId + 1
        omega
    · rw [List.pairwise_append]
      refine ⟨h4, by simp, ?_⟩
      intro a ha b' hb'
      simp only [List.mem_singleton] at hb'
      subst hb'
      exact hnew a ha
    · intro b hb
      rw [List.mem_append] at hb
      rcases hb with hb | hb
      · exact bookingOK_mono ⟨[], by simp⟩ ⟨[], by simp⟩ (h5 b hb)
      · simp only [List.mem_singleton] at hb
        subst hb
        refine ⟨?_, c, findCoach_mono ⟨[], by simp⟩ hf,
          bookingAllowed_mono ⟨[], by simp⟩ hallow⟩
        have hb1 : (utcMinute dt.sec).emod 30 = 0 ∧ utcSecond dt.sec = 0 := by
          simp only [isOnThirtyMinuteBoundary, Bool.and_eq_true,
            decide_eq_true_eq] at hbound
          exact ⟨hbound.1.1, hbound.1.2⟩
        simp [isOnThirtyMinuteBoundary, hb1.1, hb1.2]

/-- `CancelBookingHandler` preserves the state invariant. -/
theorem stateInv_cancel {tzdb : TzDb} {s : DBState} (bid : Int)
    (h : StateInv tzdb s) : StateInv tzdb (cancelBooking bid s).2 := by
  obtain ⟨h1, h2, h3, h4, h5⟩ := h
  simp only [cancelBooking]
  split
  · exact ⟨h1, h2, h3, h4, h5⟩
  refine ⟨h1, ?_, ?_, ?_, ?_⟩
  · exact h2.sublist (List.filter_sublist _)
  · intro b hb
    exact h3 b (List.mem_of_mem_filter hb)
  · exact h4.sublist (List.filter_sublist _)
  · intro b hb
    exact bookingOK_mono ⟨[], by simp⟩ ⟨[], by simp⟩
      (h5 b (List.mem_of_mem_filter hb))

/-- Every handler invocation preserves the state invariant. -/
theorem stateInv_step {tzdb : TzDb} {s s' : DBState} (h : StateInv tzdb s)
    (hs : Step tzdb s s') : StateInv tzdb s' := by
  cases hs with
  | coach nm tz s => exact stateInv_createCoach nm tz h
  | avail cid day st en s => exact stateInv_addAvail cid day st en h
  | book uid cid dt s => exact stateInv_createBooking uid cid dt h
  | cancel bid s => exact stateInv_cancel bid h

/-- The empty database satisfies the invariant. -/
theorem stateInv_init (tzdb : TzDb) : StateInv tzdb initState := by
  refine ⟨?_, ?_, ?_, ?_, ?_⟩ <;> simp [initState]

/-- Every reachable state satisfies the invariant. -/
theorem reachable_stateInv {tzdb : TzDb} {s : DBState}
    (h : Reachable tzdb s) : StateInv tzdb s := by
  induction h with
  | refl => exact stateInv_init tzdb
  | tail _ hstep ih => exact stateInv_step ih hstep

/-- The Kolkata coach state is reachable. -/
theorem reachable_sK1 : Reachable tzdbEx sK1 :=
  Relation.ReflTransGen.refl.tail (Step.coach "Asha" "Asia/Kolkata" initState)

/-- The Kolkata coach-with-window state is reachable. -/
theorem reachable_sK2 : Reachable tzdbEx sK2 :=
  reachable_sK1.tail (Step.avail 1 2 "09:00" "12:00" sK1)

/-- The Kolkata booked state is reachable. -/
theorem reachable_sK3 : Reachable tzdbEx sK3 :=
  reachable_sK2.tail (Step.book 7 1 ⟨tueSlot1, 0⟩ sK2)

/-- A cancel whose id matches no booking reports `NotFound` and leaves the
state unchanged (holds at every state, reachable or not). -/
theorem cancel_eq_notFound {s : DBState} {bid : Int}
    (hall : ∀ b ∈ s.bookings, b.id ≠ bid) :
    cancelBooking bid s = (.err .NotFound, s) := by
  simp [cancelBooking]
  exact hall

/-- A cancel whose id matches a booking succeeds and keeps exactly the
bookings with a different id. -/
theorem cancel_eq_found {s : DBState} {bid : Int}
    (b : Booking) (hb : b ∈ s.bookings) (hid : b.id = bid) :
    cancelBooking bid s = (.ok (),
      { s with bookings := s.bookings.filter (fun b => ¬ b.id == bid) }) := by
  have hlt : (s.bookings.filter (fun b => ¬ b.id == bid)).length ≠
      s.bookings.length := by
    intro heq
    have hsub := (@List.filter_sublist Booking
      (fun b => ¬ b.id == bid) s.bookings).eq_of_length heq
    have hmem : b ∈ s.bookings.filter (fun b => ¬ b.id == bid) := by
      rw [hsub]; exact hb
    rw [List.mem_filter] at hmem
    simp [hid] at hmem
  simp only [cancelBooking]
  rw [if_neg hlt]

/-- C2: at every reachable state no two bookings of the same coach share a
start instant (the `ux_coach_start` uniqueness invariant), and while a
booking at `(C, T)` is present any `createBooking` attempt for `(C, T)`, by
any user, fails with the distinguishable `SlotConflict` outcome. -/
theorem C2_uniqueness_and_conflict {tzdb : TzDb} {s : DBState}
    (h : Reachable tzdb s) :
    s.bookings.Pairwise
      (fun a b => ¬ (a.coachId = b.coachId ∧ a.startsAt = b.startsAt)) ∧
    ∀ b ∈ s.bookings, ∀ uid : Int,
      (createBooking tzdb uid b.coachId ⟨b.startsAt, 0⟩ s).1 =
        .err .SlotConflict := by
  obtain ⟨h1, h2, h3, h4, h5⟩ := reachable_stateInv h
  refine ⟨h4, ?_⟩
  intro b hb uid
  obtain ⟨hbd, c, hf, hal⟩ := h5 b hb
  have hany : s.bookings.any
      (fun x => x.coachId == b.coachId && x.startsAt == b.startsAt) = true := by
    rw [List.any_eq_true]
    exact ⟨b, hb, by simp⟩
  simp [createBooking, hf, hbd, hal, hany]

/-- C2 witness: the booked Kolkata 03:30 UTC slot is rejected with
`SlotConflict` when another user re-requests it. -/
theorem C2_witness :
    (createBooking tzdbEx 8 1 ⟨tueSlot1, 0⟩ sK3).1 = .err .SlotConflict :=
  (C2_uniqueness_and_conflict reachable_sK3).2
    ⟨1, 7, 1, tueSlot1, tueSlot1 + slotLen⟩ (by decide) 8

/-- C8: cancelling an id with no booking reports `NotFound` and changes
nothing; cancelling an existing booking succeeds, removes exactly that
booking (ids are unique at reachable states), touches no other table, and a
repeated cancel of the same id reports `NotFound`. -/
theorem C8_cancel_semantics {tzdb : TzDb} {s : DBState} (h : Reachable tzdb s)
    (bid : Int) :
    ((∀ b ∈ s.bookings, b.id ≠ bid) →
       cancelBooking bid s = (.err .NotFound, s)) ∧
    (∀ b ∈ s.bookings, b.id = bid →
       (cancelBooking bid s).1 = .ok () ∧
       (cancelBooking bid s).2.coaches = s.coaches ∧
       (cancelBooking bid s).2.avails = s.avails ∧
       b ∉ (cancelBooking bid s).2.bookings ∧
       (∀ x ∈ s.bookings, x ≠ b → x ∈ (cancelBooking bid s).2.bookings) ∧
       (cancelBooking bid ((cancelBooking bid s).2)).1 = .err .NotFound) := by
  obtain ⟨h1, h2, h3, h4, h5⟩ := reachable_stateInv h
  refine ⟨cancel_eq_notFound, ?_⟩
  intro b hb hid
  have hcb := cancel_eq_found b hb hid
  refine ⟨by rw [hcb], by rw [hcb], by rw [hcb], ?_, ?_, ?_⟩
  · rw [hcb]
    intro hmem
    simp only [List.mem_filter] at hmem
    simp [hid] at hmem
  · intro x hx hxb
    rw [hcb]
    have hsymm : Symmetric (fun a b : Booking => a.id ≠ b.id) :=
      fun a b hab => Ne.symm hab
    have hxid : x.id ≠ bid := by
      intro hxid
      rcases eq_or_ne x b with rfl | hne
      · exact hxb rfl
      · exact h2.forall hsymm hx hb hne (hxid.trans hid.symm)
    simp [List.mem_filter, hx, hxid]
  · rw [hcb]
    rw [cancel_eq_notFound]
    intro x hx
    have := (List.mem_filter.mp hx).2
    simpa using this

/-- C8 witness: cancelling the concrete Kolkata booking succeeds, and
cancelling the same id again reports `NotFound`. -/
theorem C8_witness :
    (cancelBooking 1 sK3).1 = .ok () ∧
    (cancelBooking 1 ((cancelBooking 1 sK3).2)).1 = .err .NotFound := by
  have h := (C8_cancel_semantics reachable_sK3 1).2
    ⟨1, 7, 1, tueSlot1, tueSlot1 + slotLen⟩ (by decide) (by decide)
  exact ⟨h.1, h.2.2.2.2.2⟩

/-- C10: at every reachable state the timezone of every coach a handler can
look up resolves in the IANA database, so the ignored `time.LoadLocation`
error in `GetSlotsHandler`/`PostBookingHandler` is never a failure and the
nil-location branch is unreachable; `CreateCoachHandler` enforces this by
rejecting unresolvable timezones. -/
theorem C10_timezone_always_resolves {tzdb : TzDb} {s : DBState}
    (h : Reachable tzdb s) :
    (∀ cid : Int, ∀ c : Coach, findCoach s cid = some c →
      (tzdb c.tz).isSome = true) ∧
    (∀ nm tz : String, tzdb tz = none →
      createCoach tzdb nm tz s = (.err .InvalidTimezone, s)) := by
  obtain ⟨h1, _, _, _, _⟩ := reachable_stateInv h
  refine ⟨?_, ?_⟩
  · intro cid c hf
    exact h1 c (List.mem_of_find?_eq_some hf)
  · intro nm tz htz
    simp [createCoach, htz]

/-- C10 witness: the concrete Kolkata coach's timezone resolves. -/
theorem C10_witness :
    (tzdbEx (Coach.mk 1 "Asha" "Asia/Kolkata").tz).isSome = true :=
  (C10_timezone_always_resolves reachable_sK1).1 1
    ⟨1, "Asha", "Asia/Kolkata"⟩ (by decide)

/-- C1: the slot walk emits exactly the instants `anchoredStart + 30min·k`
with `slot + 30min ≤ anchoredEnd` (so a window shorter than 30 minutes yields
nothing and a trailing partial remainder is dropped), and the Kolkata
Tuesday 09:00–12:00 example generates exactly the six UTC slots
03:30, 04:00, 04:30, 05:00, 05:30, 06:00 on the Tuesday 2025-10-28
(`tueSlot1` is 2025-10-28T03:30:00Z). -/
theorem C1_slot_generation :
    (∀ endT t x : Int, x ∈ genLoop endT t ↔
      ∃ k : Nat, x = t + slotLen * k ∧ x + slotLen ≤ endT) ∧
    (∀ endT t : Int, endT < t + slotLen → genLoop endT t = []) ∧
    weekdayOfDays (daysFromCivil ⟨2025, 10, 28⟩) = 2 ∧
    localWeekday kolkata (daysFromCivil ⟨2025, 10, 28⟩ * 86400) = 2 ∧
    windowsFor sK2 1 2 = [⟨1, 1, 2, "09:00", "12:00"⟩] ∧
    tueSlot1 = daysFromCivil ⟨2025, 10, 28⟩ * 86400 + (3 * 60 + 30) * 60 ∧
    (querySlots tzdbEx 1 ⟨2025, 10, 28⟩ sK2).1 =
      .ok [tueSlot1, tueSlot1 + 1800, tueSlot1 + 3600, tueSlot1 + 5400,
        tueSlot1 + 7200, tueSlot1 + 9000] := by
  refine ⟨fun endT t x => mem_genLoop, ?_, by decide, by decide, by decide,
    by decide, by decide⟩
  intro endT t hlt
  rw [genLoop_eq]
  simp only [slotLen] at *
  rw [if_neg (by omega)]

/-- C1 witness: a 1799-second window (shorter than one slot) generates no
slots. -/
theorem C1_witness : genLoop (1799 : Int) 0 = [] :=
  C1_slot_generation.2.1 1799 0 (by decide)

/-- C4: for the negative-offset zone America/New_York, `GetSlotsHandler`
computes the weekday of the parsed UTC-midnight instant seen in the coach
zone — the evening of the PREVIOUS local day — so for Tuesday 2025-10-28 it
fetches Monday (1) windows instead of Tuesday (2) windows and returns no
slots despite a stored Tuesday window; for a nonnegative-offset zone such as
Asia/Kolkata the two weekdays agree. -/
theorem C4_weekday_mismatch :
    weekdayOfDays (daysFromCivil ⟨2025, 10, 28⟩) = 2 ∧
    localWeekday nyFixed (daysFromCivil ⟨2025, 10, 28⟩ * 86400) = 1 ∧
    localCivil nyFixed (daysFromCivil ⟨2025, 10, 28⟩ * 86400) =
      ⟨2025, 10, 27⟩ ∧
    windowsFor sN2 1 2 ≠ [] ∧
    (querySlots tzdbEx 1 ⟨2025, 10, 28⟩ sN2).1 = .ok [] ∧
    localWeekday kolkata (daysFromCivil ⟨2025, 10, 28⟩ * 86400) = 2 := by
  decide

/-- C7: `PostAvailabilityHandler` compares the time strings
lexicographically, so the unpadded input start `"10:00"`, end `"9:00"` is
accepted and stored even though 10:00 is chronologically after 9:00 —
violating the start-before-end invariant — while the chronologically valid
pair `"9:00"`, `"10:00"` is rejected. -/
theorem C7_lexicographic_compare :
    (addAvailability 1 1 "10:00" "9:00" sK1).1 = .ok 1 ∧
    (addAvailability 1 1 "10:00" "9:00" sK1).2.avails =
      [⟨1, 1, 1, "10:00", "9:00"⟩] ∧
    parseHHMM "10:00" = some (10, 0) ∧ parseHHMM "9:00" = some (9, 0) ∧
    ¬ ((10 * 60 + 0 : Int) < 9 * 60 + 0) ∧
    (addAvailability 1 1 "9:00" "10:00" sK1).1 = .err .MalformedInput := by
  decide

/-- C6: a parseable booking request whose UTC instant is misaligned — minute
not 0 or 30, or a nonzero second or sub-second component — fails with
`BoundaryViolation` for any existing coach, regardless of availability, and
the state is unchanged. -/
theorem C6_boundary_violation {tzdb : TzDb} {s : DBState} (uid cid : Int)
    (dt : GoTime) (c : Coach) (hf : findCoach s cid = some c)
    (hmis : ¬ ((utcMinute dt.sec = 0 ∨ utcMinute dt.sec = 30) ∧
      utcSecond dt.sec = 0 ∧ dt.nsec = 0)) :
    createBooking tzdb uid cid dt s = (.err .BoundaryViolation, s) := by
  have hbf : isOnThirtyMinuteBoundary dt = false := by
    rw [Bool.eq_false_iff]
    intro htrue
    simp only [isOnThirtyMinuteBoundary, Bool.and_eq_true,
      decide_eq_true_eq] at htrue
    apply hmis
    refine ⟨?_, htrue.1.2, htrue.2⟩
    have hm := htrue.1.1
    unfold utcMinute at *
    have h0 : 0 ≤ (dt.sec.ediv 60).emod 60 := Int.emod_nonneg _ (by norm_num)
    have h1 : (dt.sec.ediv 60).emod 60 < 60 := Int.emod_lt_of_pos _ (by norm_num)
    generalize hgen : (dt.sec.ediv 60).emod 60 = m at h0 h1 hm ⊢
    have hm2 : m % 30 = 0 := hm
    omega
  simp [createBooking, hf, hbf]

/-- C6 witness: requesting 2025-10-28T03:45:00Z (UTC minute 45) from the
Kolkata coach fails with `BoundaryViolation` even though 03:45 lies inside
the 09:00–12:00 IST window. -/
theorem C6_witness :
    createBooking tzdbEx 7 1 ⟨tueSlot1 + 900, 0⟩ sK2 =
      (.err .BoundaryViolation, sK2) :=
  C6_boundary_violation 7 1 ⟨tueSlot1 + 900, 0⟩ ⟨1, "Asha", "Asia/Kolkata"⟩
    (by decide) (by decide)

/-- C9: `PostAvailabilityHandler` never looks the coach up itself: a
well-formed request for an absent coach fails only through the foreign-key
insert, surfacing as `StorageError` (HTTP 500); no input whatsoever makes it
return `CoachNotFound`; by contrast `GetSlotsHandler` and
`PostBookingHandler` return `CoachNotFound` for the same absent coach. -/
theorem C9_no_coach_existence_check {s : DBState} (tzdb : TzDb)
    (cid day : Int) (st en : String) (cd : CivilDate) (uid : Int)
    (dt : GoTime) (hday : 0 ≤ day ∧ day ≤ 6)
    (hst : (parseHHMM st).isSome = true) (hen : (parseHHMM en).isSome = true)
    (hlt : strLt st en = true)
    (hnc : findCoach s cid = none) :
    addAvailability cid day st en s = (.err .StorageError, s) ∧
    (∀ (s2 : DBState) (cid2 d2 : Int) (st2 en2 : String),
      (addAvailability cid2 d2 st2 en2 s2).1 ≠ .err .CoachNotFound) ∧
    querySlots tzdb cid cd s = (.err .CoachNotFound, s) ∧
    createBooking tzdb uid cid dt s = (.err .CoachNotFound, s) := by
  obtain ⟨v1, hv1⟩ := Option.isSome_iff_exists.mp hst
  obtain ⟨v2, hv2⟩ := Option.isSome_iff_exists.mp hen
  have hd : ¬ (day < 0 ∨ 6 < day) := by omega
  refine ⟨?_, ?_, ?_, ?_⟩
  · simp [addAvailability, hd, hv1, hv2, hlt, hnc]
  · intro s2 cid2 d2 st2 en2
    unfold addAvailability
    split
    · simp
    split
    · simp
    split
    · simp
    split
    · simp
    split
    · simp
    · simp
  · simp [querySlots, hnc]
  · simp [createBooking, hnc]

/-- C9 witness: a valid availability request for the empty database (no
coach 1) fails with `StorageError`, not `CoachNotFound`. -/
theorem C9_witness :
    addAvailability 1 2 "09:00" "12:00" initState =
      (.err .StorageError, initState) :=
  (C9_no_coach_existence_check tzdbEx 1 2 "09:00" "12:00" ⟨2025, 10, 28⟩ 7
    ⟨0, 0⟩ (by omega) (by decide) (by decide) (by decide) (by decide)).1

/-- C3 (amended): for an existing coach and a boundary-aligned request,
`PostBookingHandler` reports `OutsideAvailability` exactly when no window
stored for the weekday of the resolved local-midnight instant (`time.Date`
of the request's local year/month/day at 00:00), anchored onto that
instant's local civil date, satisfies `windowStart ≤ requested` and
`requested + 30min ≤ windowEnd`; in that case the state is unchanged, and
when such a window qualifies and the slot is untaken the booking is
inserted.  The resolved date — and hence the weekday and the anchor — equals
the requested instant's own local date except on DST gap dates whose local
midnight does not exist and is resolved into the previous local day (see the
counterexample). -/
theorem C3_availability_check {tzdb : TzDb} {s : DBState} (uid cid : Int)
    (dt : GoTime) (c : Coach) (loc : Location)
    (hf : findCoach s cid = some c) (hl : tzdb c.tz = some loc)
    (hbd : isOnThirtyMinuteBoundary dt = true) :
    ((createBooking tzdb uid cid dt s).1 = .err .OutsideAvailability ↔
      ¬ ∃ a ∈ windowsFor s cid
          (localWeekday loc (goDate loc (localCivil loc dt.sec) 0 0)),
        goDate loc (localCivil loc (goDate loc (localCivil loc dt.sec) 0 0))
            (hhmmOrZero a.startT).1 (hhmmOrZero a.startT).2 ≤ dt.sec ∧
        dt.sec + slotLen ≤
          goDate loc (localCivil loc (goDate loc (localCivil loc dt.sec) 0 0))
            (hhmmOrZero a.endT).1 (hhmmOrZero a.endT).2) ∧
    ((createBooking tzdb uid cid dt s).1 = .err .OutsideAvailability →
      (createBooking tzdb uid cid dt s).2 = s) ∧
    ((∃ a ∈ windowsFor s cid
          (localWeekday loc (goDate loc (localCivil loc dt.sec) 0 0)),
        goDate loc (localCivil loc (goDate loc (localCivil loc dt.sec) 0 0))
            (hhmmOrZero a.startT).1 (hhmmOrZero a.startT).2 ≤ dt.sec ∧
        dt.sec + slotLen ≤
          goDate loc (localCivil loc (goDate loc (localCivil loc dt.sec) 0 0))
            (hhmmOrZero a.endT).1 (hhmmOrZero a.endT).2) →
      (∀ b ∈ s.bookings, ¬ (b.coachId = cid ∧ b.startsAt = dt.sec)) →
      (createBooking tzdb uid cid dt s).1 = .ok s.nextBookingId ∧
      (createBooking tzdb uid cid dt s).2.bookings =
        s.bookings ++
          [⟨s.nextBookingId, uid, cid, dt.sec, dt.sec + slotLen⟩]) := by
  have hloc : loadedLoc tzdb c.tz = loc := by simp [loadedLoc, hl]
  have hiff : bookingAllowed loc s cid dt.sec = true ↔
      ∃ a ∈ windowsFor s cid
          (localWeekday loc (goDate loc (localCivil loc dt.sec) 0 0)),
        goDate loc (localCivil loc (goDate loc (localCivil loc dt.sec) 0 0))
            (hhmmOrZero a.startT).1 (hhmmOrZero a.startT).2 ≤ dt.sec ∧
        dt.sec + slotLen ≤
          goDate loc (localCivil loc (goDate loc (localCivil loc dt.sec) 0 0))
            (hhmmOrZero a.endT).1 (hhmmOrZero a.endT).2 := by
    unfold bookingAllowed
    rw [List.any_eq_true]
    constructor
    · rintro ⟨a, ha, hA⟩
      simp only [availOK, Bool.and_eq_true, decide_eq_true_eq] at hA
      exact ⟨a, ha, hA⟩
    · rintro ⟨a, ha, hA⟩
      refine ⟨a, ha, ?_⟩
      simp only [availOK, Bool.and_eq_true, decide_eq_true_eq]
      exact hA
  by_cases hall : bookingAllowed loc s cid dt.sec = true
  · by_cases hconf : s.bookings.any
        (fun b => b.coachId == cid && b.startsAt == dt.sec) = true
    · have hres : createBooking tzdb uid cid dt s =
          (.err .SlotConflict, s) := by
        simp [createBooking, hf, hloc, hbd, hall, hconf]
      refine ⟨?_, ?_, ?_⟩
      · exact iff_of_false (by rw [hres]; simp) (fun hno => hno (hiff.mp hall))
      · intro habs
        exact absurd habs (by rw [hres]; simp)
      · intro _ hnoconf
        exfalso
        obtain ⟨x, hx, hxeq⟩ := List.any_eq_true.mp hconf
        simp only [Bool.and_eq_true, beq_iff_eq] at hxeq
        exact hnoconf x hx hxeq
    · have hres1 : (createBooking tzdb uid cid dt s).1 =
          .ok s.nextBookingId := by
        simp [createBooking, hf, hloc, hbd, hall, hconf]
      have hres2 : (createBooking tzdb uid cid dt s).2.bookings =
          s.bookings ++
            [⟨s.nextBookingId, uid, cid, dt.sec, dt.sec + slotLen⟩] := by
        simp [createBooking, hf, hloc, hbd, hall, hconf]
      refine ⟨?_, ?_, ?_⟩
      · exact iff_of_false (by rw [hres1]; simp)
          (fun hno => hno (hiff.mp hall))
      · intro habs
        exact absurd habs (by rw [hres1]; simp)
      · intro _ _
        exact ⟨hres1, hres2⟩
  · have hallf : bookingAllowed loc s cid dt.sec = false :=
      Bool.eq_false_iff.mpr hall
    have hres : createBooking tzdb uid cid dt s =
        (.err .OutsideAvailability, s) := by
      simp [createBooking, hf, hloc, hbd, hallf]
    refine ⟨iff_of_true (by rw [hres]) (fun hex => hall (hiff.mpr hex)),
      fun _ => by rw [hres], fun hex _ => absurd (hiff.mpr hex) hall⟩

/-- C3 witness: for the Kolkata coach (where the resolved midnight lies on
the requested instant's own local date), 03:30 UTC (09:00 IST, inside the
window) is accepted, and 06:30 UTC (12:00 IST, whose slot would end past the
window) is rejected with `OutsideAvailability`. -/
theorem C3_witness :
    (createBooking tzdbEx 7 1 ⟨tueSlot1, 0⟩ sK2).1 = .ok 1 ∧
    (createBooking tzdbEx 7 1 ⟨tueSlot1 + 10800, 0⟩ sK2).1 =
      .err .OutsideAvailability := by
  constructor
  · exact ((C3_availability_check 7 1 ⟨tueSlot1, 0⟩
      ⟨1, "Asha", "Asia/Kolkata"⟩ kolkata (by decide) (by decide)
      (by decide)).2.2 (by decide) (by decide)).1
  · exact (C3_availability_check 7 1 ⟨tueSlot1 + 10800, 0⟩
      ⟨1, "Asha", "Asia/Kolkata"⟩ kolkata (by decide) (by decide)
      (by decide)).1.mpr (by decide)

/-- C3 counterexample: on the DST gap date Sunday 2025-09-07 in
America/Santiago, local midnight does not exist and `time.Date` resolves it
to Saturday 2025-09-06 23:00 CLT, so `PostBookingHandler` fetches Saturday
(6) windows anchored on the 6th: the boundary-aligned request
2025-09-07T13:00:00Z (Sunday 10:00 CLST), which lies inside the stored
Sunday (0) 09:00–12:00 window anchored on the requested instant's own local
date, is nonetheless rejected with `OutsideAvailability` — falsifying the
claim as stated. -/
theorem C3_dst_gap_counterexample :
    weekdayOfDays (daysFromCivil ⟨2025, 9, 7⟩) = 0 ∧
    localCivil santiago sunSlot = ⟨2025, 9, 7⟩ ∧
    isOnThirtyMinuteBoundary ⟨sunSlot, 0⟩ = true ∧
    (∃ a ∈ windowsFor sS2 1 0,
      goDate santiago ⟨2025, 9, 7⟩ (hhmmOrZero a.startT).1
          (hhmmOrZero a.startT).2 ≤ sunSlot ∧
      sunSlot + slotLen ≤ goDate santiago ⟨2025, 9, 7⟩
          (hhmmOrZero a.endT).1 (hhmmOrZero a.endT).2) ∧
    localCivil santiago (goDate santiago ⟨2025, 9, 7⟩ 0 0) = ⟨2025, 9, 6⟩ ∧
    localWeekday santiago (goDate santiago ⟨2025, 9, 7⟩ 0 0) = 6 ∧
    createBooking tzdbS 7 1 ⟨sunSlot, 0⟩ sS2 =
      (.err .OutsideAvailability, sS2) := by
  decide

end ABook
